import Mathlib

/-!
Verification development for the go-json-schema generator
(package jsonschema, file generator.go).

The Go source is shallowly embedded: reflect types become the inductive
`GoType`, struct tags become the record `GoTag`, the `Property` struct and
the recursive `read`/`readFromSlice`/`readFromMap`/`readFromStruct` walk are
translated into pure Lean functions returning `Except String Property`
(Go's `error` results), and the JSON encoding performed by `encoding/json`
plus `Property.MarshalJSON` is modelled by `Property.emit` into the `Json`
value type.  Standard-library collaborators (`strconv.ParseInt`,
`strconv.ParseFloat`, `strconv.ParseBool`, `strings.Split`,
`reflect.StructTag`) are modelled by executable Lean functions faithful to
their documented behaviour on the literal forms this library meets;
`float64` values are represented as `Rat` (exact decimal arithmetic; the
claims never depend on binary rounding).
-/

namespace GoJsonSchema

/-- JSON values, the target of the document encoding. Numbers are kept
exact as rationals. Object fields are an ordered association list, the
order being the one `encoding/json` produces. -/
inductive Json where
  | null
  | bool (b : Bool)
  | num (q : Rat)
  | str (s : String)
  | arr (elems : List Json)
  | obj (fields : List (String × Json))

/-- A dynamically typed scalar held in the `interface{}`-typed fields
`Property.Default` and `Property.Const` of the source: Go stores a
`string`, a `float64` (from `strconv.ParseFloat`), an `int64` (from
`strconv.ParseInt`) or a `bool` there. -/
inductive Lit where
  | str (s : String)
  | num (q : Rat)
  | int (n : Int)
  | bool (b : Bool)
deriving DecidableEq

/-- `json.Marshal` of the scalar stored in an `interface{}` field. -/
def Lit.toJson : Lit → Json
  | .str s => .str s
  | .num q => .num q
  | .int n => .num (n : Rat)
  | .bool b => .bool b

/-- The `reflect.Kind`s that can occur for the Go types this generator
walks (generator.go kindMapping plus Ptr/Interface which are handled
without a mapping entry). -/
inductive Kind where
  | bool | int | int8 | int16 | int32 | int64
  | uint | uint8 | uint16 | uint32 | uint64
  | float32 | float64 | string
  | slice | map | struct | ptr | interface
deriving DecidableEq

/-- generator.go `kindMapping`: the fixed kind-to-JSON-type table. -/
def kindMapping : Kind → Option String
  | .bool => some "boolean"
  | .int => some "integer"
  | .int8 => some "integer"
  | .int16 => some "integer"
  | .int32 => some "integer"
  | .int64 => some "integer"
  | .uint => some "integer"
  | .uint8 => some "integer"
  | .uint16 => some "integer"
  | .uint32 => some "integer"
  | .uint64 => some "integer"
  | .float32 => some "number"
  | .float64 => some "number"
  | .string => some "string"
  | .slice => some "array"
  | .struct => some "object"
  | .map => some "object"
  | _ => none

/-- generator.go `isPrimitive`.  Faithful to the Go source: a Go `switch`
does not fall through, so the empty `case "boolean":`, `case "integer":`
and `case "number":` bodies break out of the switch and reach the final
`return false`; only the `case "string": return true` arm returns true. -/
def isPrimitive (k : Kind) : Bool :=
  match kindMapping k with
  | some v =>
    if v = "boolean" then false
    else if v = "integer" then false
    else if v = "number" then false
    else if v = "string" then true
    else false
  | none => false

/-- The struct-tag annotations consulted by generator.go, one field per
tag key.  `Tag.Get`-style keys default to the empty string; `Tag.Lookup`
style keys (json presence does not matter, but default/extensions do, and
`required` is presence-only) are `Option`s / a `Bool`.  The `extensions`
tag is carried in already-parsed form: the raw value is decoded by
`encoding/json` (an external collaborator); a payload that fails to parse
aborts generation and is outside the claims treated here. -/
structure GoTag where
  json : Option String := none
  required : Bool := false
  description : String := ""
  title : String := ""
  default : Option String := none
  extensions : Option (List (String × Json)) := none
  minLength : String := ""
  maxLength : String := ""
  pattern : String := ""
  enum : String := ""
  const : String := ""
  multipleOf : String := ""
  min : String := ""
  max : String := ""
  exclusiveMin : String := ""
  exclusiveMax : String := ""

mutual
/-- The Go types reachable by the walker.  `timeTime` is the designated
temporal type `time.Time` (special-cased through `formatMapping` by its
name); `strct` carries the struct's identity (its name, standing in for
`reflect.Type` identity) and its declared fields in order; `mapOf e` is a
`map[string]e`; `iface` is `interface{}` (and any other kind with no
entry in `kindMapping`). -/
inductive GoType where
  | bool | int | int8 | int16 | int32 | int64
  | uint | uint8 | uint16 | uint32 | uint64
  | float32 | float64 | string
  | timeTime
  | slice (elem : GoType)
  | mapOf (elem : GoType)
  | ptr (elem : GoType)
  | strct (name : String) (fields : List GoStructField)
  | iface

/-- One declared struct field: its Go identifier, whether it is exported
(`PkgPath == ""`), its tag set, and its type. -/
inductive GoStructField where
  | mk (name : String) (exported : Bool) (tag : GoTag) (type : GoType)
end

/-- `reflect.Type.Kind()` for the embedded types. -/
def GoType.kind : GoType → Kind
  | .bool => .bool
  | .int => .int
  | .int8 => .int8
  | .int16 => .int16
  | .int32 => .int32
  | .int64 => .int64
  | .uint => .uint
  | .uint8 => .uint8
  | .uint16 => .uint16
  | .uint32 => .uint32
  | .uint64 => .uint64
  | .float32 => .float32
  | .float64 => .float64
  | .string => .string
  | .timeTime => .struct
  | .slice _ => .slice
  | .mapOf _ => .map
  | .ptr _ => .ptr
  | .strct _ _ => .struct
  | .iface => .interface

/-- `reflect.Type.Elem()` for pointer, slice and map types (the only
places the source calls it). -/
def GoType.elem : GoType → GoType
  | .slice e => e
  | .mapOf e => e
  | .ptr e => e
  | t => t

/-- generator.go `getTypeFromMapping`: `formatMapping` is consulted first
by type name (only `time.Time` is registered, yielding
("string", "date-time") and reporting kind String), then `kindMapping`
by kind. -/
def getTypeFromMapping (t : GoType) : String × String × Kind :=
  match t with
  | .timeTime => ("string", "date-time", Kind.string)
  | _ =>
    match kindMapping t.kind with
    | some v => (v, "", t.kind)
    | none => ("", "", t.kind)

/-! ### Models of the strconv / strings collaborators -/

/-- Leading sign of a numeric literal: returns (negative?, rest). -/
def parseSign : List Char → Bool × List Char
  | '+' :: rest => (false, rest)
  | '-' :: rest => (true, rest)
  | l => (false, l)

/-- Decimal digit test. -/
def isDigitCh (c : Char) : Bool := '0' ≤ c && c ≤ '9'

/-- Value of a list of decimal digits. -/
def digitsVal (l : List Char) : Nat :=
  l.foldl (fun a c => 10 * a + (c.toNat - '0'.toNat)) 0

/-- Model of `strconv.ParseInt(s, 10, 64)`: optional sign, one or more
decimal digits, and an int64 range check (out of range is an error). -/
def parseIntLit (s : String) : Option Int :=
  let (neg, ds) := parseSign s.toList
  if ds.isEmpty || !(ds.all isDigitCh) then none
  else
    let v : Int := (digitsVal ds : Nat)
    let v := if neg then -v else v
    if v < -(2 ^ 63) || (2 ^ 63 - 1 : Int) < v then none else some v

/-- Model of `strconv.ParseBool`: exactly the twelve accepted literals. -/
def parseBoolLit (s : String) : Option Bool :=
  if s = "1" || s = "t" || s = "T" || s = "TRUE" || s = "true" || s = "True" then some true
  else if s = "0" || s = "f" || s = "F" || s = "FALSE" || s = "false" || s = "False" then some false
  else none

/-- Exact rational value of a decimal literal
`digits * 10 ^ (exp - fracLen)`, negated when `neg`. -/
def decimalValue (digits : Nat) (fracLen : Nat) (exp : Int) (neg : Bool) : Rat :=
  let e : Int := exp - (fracLen : Int)
  let v : Rat :=
    if 0 ≤ e then ((digits * 10 ^ e.toNat : Nat) : Rat)
    else (digits : Rat) / ((10 : Rat) ^ (-e).toNat)
  if neg then -v else v

/-- Model of `strconv.ParseFloat(s, 64)` on plain decimal literals:
optional sign, digits with an optional single fractional point (at least
one digit overall), and an optional decimal exponent.  The exotic forms
ParseFloat also accepts (inf/nan names, hex mantissas, literals whose
magnitude overflows to an error) are not modelled; no claim depends on
them, and the value is kept exact as a rational. -/
def parseFloatLit (s : String) : Option Rat :=
  let (neg, l) := parseSign s.toList
  let (mant, rest) := l.span (fun c => c != 'e' && c != 'E')
  let (ip, dotfp) := mant.span (fun c => c != '.')
  let fp := match dotfp with
    | [] => []
    | _ :: fpTail => fpTail
  if !(ip.all isDigitCh) || !(fp.all isDigitCh) || fp.any (fun c => c == '.') then none
  else if ip.isEmpty && fp.isEmpty then none
  else
    match rest with
    | [] => some (decimalValue (digitsVal (ip ++ fp)) fp.length 0 neg)
    | _ :: expPart =>
      let (eneg, eds) := parseSign expPart
      if eds.isEmpty || !(eds.all isDigitCh) then none
      else
        let ev : Int := if eneg then -(digitsVal eds : Int) else (digitsVal eds : Int)
        some (decimalValue (digitsVal (ip ++ fp)) fp.length ev neg)

/-- Split a character list at every occurrence of `sep`
(`strings.Split` with a one-character separator). -/
def splitChar (sep : Char) : List Char → List (List Char)
  | [] => [[]]
  | c :: rest =>
    let r := splitChar sep rest
    if c = sep then [] :: r
    else
      match r with
      | [] => [[c]]
      | h :: t => (c :: h) :: t

/-- `strings.Split(s, sep)` for the one-character separators ("," and
"|") the source uses. -/
def splitOnChar (sep : Char) (s : String) : List String :=
  (splitChar sep s.toList).map List.asString

/-- generator.go `parseTag`: split the json tag value at the first comma
into (name, options). -/
def parseTag (tag : String) : String × String :=
  match tag.toList.span (fun c => c != ',') with
  | (before, []) => (before.asString, "")
  | (before, _ :: after) => (before.asString, after.asString)

/-- generator.go `structTag.Contains`: the Go loop walks the option
string comma segment by comma segment comparing each against
`optionName`; that is exactly membership among the comma-split segments,
with the empty option string short-circuiting to false. -/
def tagContains (o : String) (optionName : String) : Bool :=
  if o = "" then false
  else (splitOnChar ',' o).contains optionName

/-! ### The Property struct and the recursive walk -/

/-- generator.go `Property`, one output schema node, fields in source
declaration order.  The number-valued validators are `Option`s (the
source uses pointers so that zero is distinguished from absent);
`default` and `const` hold a dynamically typed scalar; `extensions` is
the parsed extensions payload (`map[string]interface{}`, json:"-");
`ref` is the `$ref` string.  The `knownTypes` field of the source is
threaded separately as a function argument (it is copied unchanged into
every child), while `isDefinition` is kept here as in the source. -/
structure Property where
  type : String
  format : String
  items : Option Property
  properties : List (String × Property)
  required : List String
  additionalProperties : Bool
  description : String
  anyOf : List Property
  oneOf : List Property
  dependencies : List (String × Property)
  default : Option Lit
  extensions : Option (List (String × Json))
  multipleOf : Option Rat
  maximum : Option Rat
  minimum : Option Rat
  exclusiveMaximum : Option Rat
  exclusiveMinimum : Option Rat
  maxLength : Option Int
  minLength : Option Int
  pattern : String
  enum : List String
  title : String
  const : Option Lit
  ref : String
  isDefinition : Bool

/-- The zero `Property` (what `Property.child()` returns, the
`knownTypes` copy being threaded separately). -/
def Property.empty : Property :=
  ⟨"", "", none, [], [], false, "", [], [], [], none, none,
   none, none, none, none, none, none, none, "", [], "", none, "", false⟩

/-- `m[k] = v` on a Go map modelled as an association list: replace the
binding if the key is present, append it otherwise. -/
def mapSet : List (String × Property) → String → Property → List (String × Property)
  | [], k, v => [(k, v)]
  | (k1, v1) :: rest, k, v =>
    if k1 = k then (k, v) :: rest else (k1, v1) :: mapSet rest k v

/-- The one-time-built definition registry: struct identity (its name,
standing in for `reflect.Type`) mapped to the definition name. -/
def KnownTypes := List (String × String)

/-- generator.go `knownTypes.getReference`: look the struct identity up
and produce the `#/definitions/<name>` pointer. -/
def getReference (kt : KnownTypes) (structName : String) : Option String :=
  match List.lookup structName (kt : List (String × String)) with
  | some name => some ("#/definitions/" ++ name)
  | none => none

/-- generator.go `parseType`: the `const` literal of a number-typed node
is parsed as a float for "number" and as an int64 for anything else
(in practice "integer"). -/
def parseType (str ty : String) : Option Lit :=
  if ty = "number" then (parseFloatLit str).map Lit.num
  else (parseIntLit str).map Lit.int

/-- generator.go `Property.addStringValidators`: each literal is parsed
and, only on success, stored; parse failures are silently skipped.
`pattern`, `enum` and `const` are taken verbatim when non-empty, `enum`
split on bars. -/
def addStringValidators (p : Property) (tag : GoTag) : Property :=
  let p := match parseIntLit tag.minLength with
    | some n => { p with minLength := some n }
    | none => p
  let p := match parseIntLit tag.maxLength with
    | some n => { p with maxLength := some n }
    | none => p
  let p := if tag.pattern != "" then { p with pattern := tag.pattern } else p
  let p := if tag.enum != "" then { p with enum := splitOnChar '|' tag.enum } else p
  if tag.const != "" then { p with const := some (Lit.str tag.const) } else p

/-- generator.go `Property.addNumberValidators`: same silent-skip policy
for the five float-valued validators and the typed `const`. -/
def addNumberValidators (p : Property) (tag : GoTag) : Property :=
  let p := match parseFloatLit tag.multipleOf with
    | some q => { p with multipleOf := some q }
    | none => p
  let p := match parseFloatLit tag.min with
    | some q => { p with minimum := some q }
    | none => p
  let p := match parseFloatLit tag.max with
    | some q => { p with maximum := some q }
    | none => p
  let p := match parseFloatLit tag.exclusiveMin with
    | some q => { p with exclusiveMinimum := some q }
    | none => p
  let p := match parseFloatLit tag.exclusiveMax with
    | some q => { p with exclusiveMaximum := some q }
    | none => p
  match parseType tag.const p.type with
  | some l => { p with const := some l }
  | none => p

/-- generator.go `Property.addValidatorsFromTags`: dispatch on the
node's already-computed type. -/
def addValidatorsFromTags (p : Property) (tag : GoTag) : Property :=
  if p.type = "string" then addStringValidators p tag
  else if p.type = "number" || p.type = "integer" then addNumberValidators p tag
  else p

/-- The `default` tag coercion switch inside `readFromStruct`
(generator.go lines 323-340): the outcome is decided by the node's
declared type, and the two parse failures and the unsupported-type case
produce the source's error strings verbatim. -/
def applyDefault (ty s name : String) : Except String Lit :=
  if ty = "string" then .ok (.str s)
  else if ty = "number" || ty = "integer" then
    match parseFloatLit s with
    | some q => .ok (.num q)
    | none => .error ("could not parse \"" ++ s ++ "\" to float64 for property " ++ name)
  else if ty = "boolean" then
    match parseBoolLit s with
    | some b => .ok (.bool b)
    | none => .error ("could not parse \"" ++ s ++ "\" to bool for property " ++ name)
  else .error ("default not supported for type \"" ++ ty ++ "\" on property " ++ name)

/-- The per-field decoration sequence of `readFromStruct` applied to the
target node (the child for an exported field, the enclosing node for an
unexported one): description and title are assigned unconditionally,
then the validators, then the coerced default (which can fail), then the
parsed extensions payload.  In the source the decorations mutate the
target in place; an error aborts the whole generation, so decorating
first and storing afterwards is observationally the same. -/
def applyExtensions (target : Property) (tag : GoTag) : Property :=
  match tag.extensions with
  | some ext => { target with extensions := some ext }
  | none => target

/-- The decoration sequence of `readFromStruct` for one field:
description, title, validators, coerced default (which can fail with
the source's error), then the extensions payload. -/
def decorate (target : Property) (tag : GoTag) (name : String) : Except String Property :=
  let target := { target with description := tag.description, title := tag.title }
  let target := addValidatorsFromTags target tag
  match tag.default with
  | some s =>
    match applyDefault target.type s name with
    | .ok l => .ok (applyExtensions { target with default := some l } tag)
    | .error e => .error e
  | none => .ok (applyExtensions target tag)

/-- The required-list step at the end of the field loop (generator.go
lines 352-356): the name is appended only when a `required` tag is
present and the json options do not contain "omitempty". -/
def requiredStep (p : Property) (tag : GoTag) (opts : String) (name : String) : Property :=
  if tagContains opts "omitempty" || !tag.required then p
  else { p with required := p.required ++ [name] }

/-- generator.go `Property.readFromMap`, given `t.Elem()`: a value type
with a mapped JSON type gets the literal wildcard entry
`properties[".*"] = {type, format}`; otherwise `additionalProperties`
is set to true. -/
def readFromMap (p : Property) (elem : GoType) : Property :=
  let (jsType, format, _) := getTypeFromMapping elem
  if jsType != "" then
    { p with properties := [(".*", { Property.empty with type := jsType, format := format })] }
  else
    { p with additionalProperties := true }

/-- The opening lines of `Property.read`: assign the mapped JSON type
and format when non-empty. -/
def readAssignType (p : Property) (t : GoType) : Property :=
  let (jsType, format, _) := getTypeFromMapping t
  let p := if jsType != "" then { p with type := jsType } else p
  if format != "" then { p with format := format } else p

mutual
/-- generator.go `Property.read`: assign the mapped type and format,
dispatch on the kind (slice, map, struct, pointer), and afterwards apply
the nullable-primitive rewriting for pointers whose element kind passes
`isPrimitive`.  The `readFromSlice` body (generator.go lines 253-262) is
inlined in the slice branch with `t.Elem()` in hand: a `[]byte` becomes
a plain string node, element types with a mapped kind or of pointer kind
get a recursively built `items` child. -/
def read (kt : KnownTypes) (p : Property) : GoType → Except String Property
  | t@(.slice e) =>
    let p := readAssignType p t
    let (ejsType, _, ekind) := getTypeFromMapping e
    if ekind = Kind.uint8 then .ok { p with type := "string" }
    else if ejsType != "" || ekind = Kind.ptr then
      match read kt Property.empty e with
      | .ok it => .ok { p with items := some it }
      | .error e => .error e
    else .ok p
  | t@(.mapOf e) =>
    .ok (readFromMap (readAssignType p t) e)
  | t@(.strct n fs) =>
    -- generator.go Property.readFromStruct, lines 276-288 and the field
    -- loop; the reference check applies only when not generating a
    -- definition body (p.Ref is assigned the lookup result either way).
    let p := readAssignType p t
    if p.isDefinition = false then
      match getReference kt n with
      | some r => .ok { p with ref := r, type := "" }
      | none =>
        processFields kt
          { p with ref := "", type := "object", properties := [], additionalProperties := false } fs
    else
      processFields kt
        { p with type := "object", properties := [], additionalProperties := false } fs
  | t@(.ptr e) =>
    let p := readAssignType p t
    match read kt p e with
    | .ok p =>
      -- "say we have *int": the nullable rewriting, gated by isPrimitive
      -- on the element kind.
      if isPrimitive e.kind then
        .ok { p with
              anyOf := [{ Property.empty with type := p.type },
                        { Property.empty with type := "null" }],
              type := "" }
      else .ok p
    | .error e => .error e
  | t => .ok (readAssignType p t)

/-- The field loop of `readFromStruct`, in declaration order, stopping
at the first error. -/
def processFields (kt : KnownTypes) (p : Property) : List GoStructField → Except String Property
  | [] => .ok p
  | f :: rest =>
    match processField kt p f with
    | .ok p => processFields kt p rest
    | .error e => .error e

/-- One iteration of the `readFromStruct` field loop.  An exported field
builds a child node (errors wrapped "property:<field>:<err>"), resolves
its external name (tag name, else the Go identifier; "-" skips the field
entirely), decorates the child and stores it under the name; an
unexported field decorates the enclosing node itself.  Both paths then
run the required-list step with the field's tags. -/
def processField (kt : KnownTypes) (p : Property) : GoStructField → Except String Property
  | .mk fname exported tag fty =>
    let np := parseTag (tag.json.getD "")
    if exported then
      match read kt Property.empty fty with
      | .error e => .error ("property:" ++ fname ++ ":" ++ e)
      | .ok target =>
        let name := if np.1 = "" then fname else np.1
        if name = "-" then .ok p
        else
          match decorate target tag name with
          | .ok target =>
            .ok (requiredStep { p with properties := mapSet p.properties name target } tag np.2 name)
          | .error e => .error e
    else
      match decorate p tag np.1 with
      | .ok p => .ok (requiredStep p tag np.2 np.1)
      | .error e => .error e
end

/-! ### The document assembler (Generator.Generate) -/

/-- generator.go `DEFAULT_SCHEMA`. -/
def DEFAULT_SCHEMA : String := "http://json-schema.org/schema#"

/-- The configured generator: a root instance's type, the registered
name-to-instance definitions (in registration order; the source's
`map[string]interface{}` iterates in unspecified order and deduplicates
registrations of the identical `reflect.Type`, which coincides with this
list whenever the registered types are distinct), and the dialect URI. -/
structure Generator where
  root : Option GoType
  definitions : List (String × GoType)
  schema : String

/-- `NewGenerator`: an empty generator whose dialect URI defaults to
`DEFAULT_SCHEMA` when the option is left empty. -/
def newGenerator (schemaOpt : String) : Generator :=
  ⟨none, [], if schemaOpt = "" then DEFAULT_SCHEMA else schemaOpt⟩

/-- `Generator.WithRoot`. -/
def Generator.withRoot (g : Generator) (t : GoType) : Generator :=
  { g with root := some t }

/-- `Generator.WithDefinition`. -/
def Generator.withDefinition (g : Generator) (name : String) (t : GoType) : Generator :=
  { g with definitions := g.definitions ++ [(name, t)] }

/-- The one pointer dereference applied to each registered definition
instance (`if defType.Kind() == reflect.Ptr { defType = defType.Elem() }`). -/
def derefOnce : GoType → GoType
  | .ptr e => e
  | t => t

/-- The `d.knownTypes` table built by `Generate`: registered instance
type (after the pointer dereference) paired with its definition name. -/
def buildKnownList (defs : List (String × GoType)) : List (GoType × String) :=
  defs.map (fun nt => (derefOnce nt.2, nt.1))

/-- The struct-identity view of the known-type table consulted by
`getReference` (only struct types can be looked up during the walk). -/
def knownNames (kl : List (GoType × String)) : KnownTypes :=
  kl.filterMap (fun tn =>
    match tn.1 with
    | .strct sn _ => some (sn, tn.2)
    | _ => none)

/-- The output document: dialect URI, definitions mapping, and the root
schema node (embedded `Property` in the source). -/
structure JSONSchema where
  schema : String
  definitions : List (String × Property)
  prop : Property

/-- The definitions loop of `Generate`: each registered type is read
with `isDefinition = true` into a fresh child; an error is wrapped with
the definition's type and name. -/
def genDefinitions (kt : KnownTypes) : List (GoType × String) → Except String (List (String × Property))
  | [] => .ok []
  | (defType, name) :: rest =>
    match read kt { Property.empty with isDefinition := true } defType with
    | .error e => .error ("error on type (" ++ name ++ "): " ++ e)
    | .ok p =>
      match genDefinitions kt rest with
      | .ok ds => .ok ((name, p) :: ds)
      | .error e => .error e

/-- generator.go `Generator.Generate`: build the registry from the
registered definitions, generate every definition body with
`isDefinition = true`, then read the root (if any) into the document's
own embedded node, wrapping a root failure with its type. -/
def Generator.generate (g : Generator) : Except String JSONSchema :=
  let kl := buildKnownList g.definitions
  let kt := knownNames kl
  match genDefinitions kt kl with
  | .error e => .error e
  | .ok defs =>
    match g.root with
    | none => .ok ⟨g.schema, defs, Property.empty⟩
    | some t =>
      match read kt Property.empty t with
      | .ok p => .ok ⟨g.schema, defs, p⟩
      | .error e => .error ("error on root type: " ++ e)

/-! ### The JSON encoding (encoding/json plus Property.MarshalJSON) -/

/-- Code-point-wise string comparison (less or equal).  UTF-8 byte
order, which Go's `sort.Strings` uses on map keys, agrees with code
point order. -/
def charListLe : List Char → List Char → Bool
  | [], _ => true
  | _ :: _, [] => false
  | a :: as, b :: bs =>
    if a < b then true
    else if b < a then false
    else charListLe as bs

/-- Boolean string order used to model Go's sorted map-key encoding. -/
def strLe (a b : String) : Bool := charListLe a.toList b.toList

/-- Insert one key into a key-sorted association list (Go marshals maps
with their keys in sorted order). -/
def insertByKey (kv : String × Json) : List (String × Json) → List (String × Json)
  | [] => [kv]
  | x :: xs => if strLe kv.1 x.1 then kv :: x :: xs else x :: insertByKey kv xs

/-- Sort an association list by key (insertion sort). -/
def sortByKey (l : List (String × Json)) : List (String × Json) :=
  l.foldr insertByKey []

/-- `raw[k] = v` on the decoded `map[string]interface{}`: replace the
binding if present, append otherwise. -/
def jsonSet : List (String × Json) → String → Json → List (String × Json)
  | [], k, v => [(k, v)]
  | (k1, v1) :: rest, k, v =>
    if k1 = k then (k, v) :: rest else (k1, v1) :: jsonSet rest k v

/-- The extensions overlay of `MarshalJSON`: every parsed extension key
is written over the decoded structural fields. -/
def mergeExt (fields : List (String × Json)) (ext : List (String × Json)) : List (String × Json) :=
  ext.foldl (fun acc kv => jsonSet acc kv.1 kv.2) fields

/-- Keep the present entries of the field table. -/
def filterTable (tbl : List (String × Option Json)) : List (String × Json) :=
  tbl.filterMap (fun e =>
    match e.2 with
    | some v => some (e.1, v)
    | none => none)

/-- A string struct field with omitempty: emitted only when non-empty. -/
def omitStr (k : String) : Option Json :=
  if k = "" then none else some (Json.str k)

/-- `Property.MarshalJSON` given the already-encoded plain struct
fields: without extensions the struct encoding stands; with extensions
the fields are decoded into a map, overlaid with the extension keys and
re-encoded, which leaves the keys in sorted map order. -/
def assembleKVs (fields : List (String × Json)) (exts : Option (List (String × Json))) : List (String × Json) :=
  match exts with
  | none => fields
  | some ext => sortByKey (mergeExt fields ext)

set_option maxHeartbeats 1600000

mutual
/-- The plain struct encoding of one `Property` (the `marshallingProperty`
view): one entry per source field in declaration order, `none` when the
omitempty rule drops it.  Child nodes reached through `*Property`
(items, properties, anyOf, oneOf, dependencies) are encoded through
`Property.MarshalJSON`, extensions overlay included; `Extensions` itself
has tag json:"-" and is never encoded as a field. -/
def fieldTable : Property → List (String × Option Json)
  | ⟨ty, fmt, items, props, req, addl, desc, anyOf, oneOf, deps, dflt, _exts, mOf, mx, mn,
     exMx, exMn, maxL, minL, pat, enm, ttl, cst, ref, _isDef⟩ =>
    [("type", omitStr ty),
     ("format", omitStr fmt),
     ("items", emitOpt items),
     ("properties", if props.isEmpty then none else some (Json.obj (sortByKey (emitAssoc props)))),
     ("required", if req.isEmpty then none else some (Json.arr (req.map Json.str))),
     ("additionalProperties", if addl then some (Json.bool true) else none),
     ("description", omitStr desc),
     ("anyOf", if anyOf.isEmpty then none else some (Json.arr (emitList anyOf))),
     ("oneOf", if oneOf.isEmpty then none else some (Json.arr (emitList oneOf))),
     ("dependencies", if deps.isEmpty then none else some (Json.obj (sortByKey (emitAssoc deps)))),
     ("default", dflt.map Lit.toJson),
     ("multipleOf", mOf.map Json.num),
     ("maximum", mx.map Json.num),
     ("minimum", mn.map Json.num),
     ("exclusiveMaximum", exMx.map Json.num),
     ("exclusiveMinimum", exMn.map Json.num),
     ("maxLength", maxL.map (fun n => Json.num (n : Rat))),
     ("minLength", minL.map (fun n => Json.num (n : Rat))),
     ("pattern", omitStr pat),
     ("enum", if enm.isEmpty then none else some (Json.arr (enm.map Json.str))),
     ("title", omitStr ttl),
     ("const", cst.map Lit.toJson),
     ("$ref", omitStr ref)]

/-- Encode an optional child through `Property.MarshalJSON`. -/
def emitOpt : Option Property → Option Json
  | none => none
  | some q => some (Json.obj (assembleKVs (filterTable (fieldTable q)) q.extensions))

/-- Encode a list of children through `Property.MarshalJSON`. -/
def emitList : List Property → List Json
  | [] => []
  | q :: rest => Json.obj (assembleKVs (filterTable (fieldTable q)) q.extensions) :: emitList rest

/-- Encode a map of children through `Property.MarshalJSON` (key order
handled by the caller's sort). -/
def emitAssoc : List (String × Property) → List (String × Json)
  | [] => []
  | (k, q) :: rest =>
    (k, Json.obj (assembleKVs (filterTable (fieldTable q)) q.extensions)) :: emitAssoc rest
end

/-- The key-value list of one node's emitted JSON object. -/
def Property.emitKVs (p : Property) : List (String × Json) :=
  assembleKVs (filterTable (fieldTable p)) p.extensions

/-- `(*Property).MarshalJSON` as a JSON value. -/
def Property.emit (p : Property) : Json :=
  Json.obj p.emitKVs

/-- `json.MarshalIndent` of the document.  A `JSONSchema` value reaching
the encoder through an interface is not addressable, so the promoted
pointer-receiver `MarshalJSON` of the embedded `Property` is not used:
the document is encoded field by field ($schema, definitions, then the
embedded node's fields inlined at the top level, without the extensions
overlay).  Definition map values are `Property` values (not pointers)
and are likewise encoded as plain structs at their own level, their
children going through `MarshalJSON` as usual. -/
def JSONSchema.emit (d : JSONSchema) : Json :=
  Json.obj (
    (if d.schema = "" then [] else [("$schema", Json.str d.schema)])
    ++ (if d.definitions.isEmpty then []
        else [("definitions",
               Json.obj (sortByKey (d.definitions.map (fun np =>
                 (np.1, Json.obj (filterTable (fieldTable np.2)))))))])
    ++ filterTable (fieldTable d.prop))

/-! ### Predicates and concrete instances referenced by the claim theorems -/

/-- The external name resolution of the field loop: the json tag's name
part, defaulting to the Go field identifier when empty. -/
def resolvedName (fname : String) (tag : GoTag) : String :=
  let n := (parseTag (tag.json.getD "")).1
  if n = "" then fname else n

/-- Observe the default slot of a build outcome (`none` = build failed). -/
def defaultOf : Except String Property → Option (Option Lit)
  | .ok r => some r.default
  | .error _ => none

/-- Did the build step succeed? -/
def isOkResult : Except String Property → Bool
  | .ok _ => true
  | .error _ => false

/-- A successful outcome is an inline object schema carrying no
reference: empty `$ref`, type "object", additionalProperties false. -/
def inlineObjectResult : Except String Property → Bool
  | .ok r => r.ref == "" && r.type == "object" && r.additionalProperties == false
  | .error _ => true

/-- The fixed label row of the struct encoding, in declaration order. -/
def fieldLabels : List String :=
  ["type", "format", "items", "properties", "required", "additionalProperties",
   "description", "anyOf", "oneOf", "dependencies", "default", "multipleOf",
   "maximum", "minimum", "exclusiveMaximum", "exclusiveMinimum", "maxLength",
   "minLength", "pattern", "enum", "title", "const", "$ref"]

/-- A node carrying only a JSON type, as in the source's anyOf literals. -/
def typeOnlyNode (ty : String) : Property := { Property.empty with type := ty }

/-- The nullable-string node `*string` produces. -/
def nullableStringNode : Property :=
  { Property.empty with anyOf := [typeOnlyNode "string", typeOnlyNode "null"] }

/-- A required string field `Data`, external name "data", no omitempty. -/
def fieldDataReq : GoStructField :=
  .mk "Data" true { json := some "data", required := true } .string

/-- An optional string field `Note`, external name "note", omitempty. -/
def fieldNoteOmit : GoStructField :=
  .mk "Note" true { json := some "note,omitempty" } .string

/-- A registry mapping the struct identity `Child` to definition name
`child`. -/
def c2kt : KnownTypes := [("Child", "child")]

/-- The tag of the concrete required field used as witness input. -/
def c3Tag : GoTag := { json := some "data", required := true }

/-- The parent node after processing the witness field. -/
def c3Result : Property :=
  match processField [] Property.empty (.mk "Data" true c3Tag .string) with
  | .ok q => q
  | .error _ => Property.empty

/-- The node the source produces for `map[string][]string`. -/
def c4Node : Property :=
  { Property.empty with
      type := "object",
      properties := [(".*", typeOnlyNode "array")] }

/-- A tag naming the field "-" while also marking it required. -/
def c5Tag : GoTag := { json := some "-", required := true }

/-- What the source produces for a struct whose only field is an
unexported one tagged json:"-" required:"true". -/
def c5Node : Property := { Property.empty with type := "object", required := ["-"] }

/-- The parent node after processing an exported "-"-named field. -/
def c5Result : Property :=
  match processField [] Property.empty (.mk "Skip" true c5Tag .string) with
  | .ok q => q
  | .error _ => typeOnlyNode "unreachable"

/-- An integer-typed node, witness input for the default coercion. -/
def c6Node : Property := typeOnlyNode "integer"

/-- A tag carrying the default literal "42". -/
def c6Tag : GoTag := { default := some "42" }

/-- An integer-typed node, witness input for the validator extraction. -/
def c7p : Property := typeOnlyNode "integer"

/-- A tag whose every numeric validator literal fails to parse. -/
def c7Tag : GoTag :=
  { minLength := "abc", maxLength := "de", multipleOf := "x", min := "y", max := "z",
    exclusiveMin := "q", exclusiveMax := "w", const := "notanumber" }

/-- The field of the spec's extensions scenario: enum "a|b|c" plus an
extensions payload binding "enumNames". -/
def c8Field : GoStructField :=
  .mk "Value" true
    { json := some "value", enum := "a|b|c",
      extensions := some [("enumNames", Json.arr [Json.str "A", Json.str "B", Json.str "C"])] }
    .string

/-- The property node built for that field. -/
def c8Node : Property :=
  match read [] Property.empty (.strct "Ex" [c8Field]) with
  | .ok p => (List.lookup "value" p.properties).getD Property.empty
  | .error _ => Property.empty

/-- A string node whose extensions payload overrides the structural
"type" keyword. -/
def c8OverrideNode : Property :=
  { Property.empty with
      type := "string",
      extensions := some [("type", Json.str "overridden")] }

/-- The root composite of the round-trip scenario: required string
"data", omitempty string "note". -/
def c9Root : GoType := .strct "Domain" [fieldDataReq, fieldNoteOmit]

/-- The document the round-trip scenario must produce. -/
def c9Expected : Json :=
  Json.obj
    [("$schema", Json.str "http://json-schema.org/schema#"),
     ("type", Json.str "object"),
     ("properties", Json.obj
        [("data", Json.obj [("type", Json.str "string")]),
         ("note", Json.obj [("type", Json.str "string")])]),
     ("required", Json.arr [Json.str "data"])]

/-- The parent node after processing an unexported required field
tagged json:"-". -/
def c10Result : Property :=
  match processField [] Property.empty (.mk "meta" false c5Tag .string) with
  | .ok q => q
  | .error _ => typeOnlyNode "unreachable"

/-! ### Helper lemmas about the decoration pipeline -/

theorem addStringValidators_type (p : Property) (tag : GoTag) :
    (addStringValidators p tag).type = p.type := by
  simp only [addStringValidators]; (repeat' split) <;> rfl

theorem addStringValidators_ref (p : Property) (tag : GoTag) :
    (addStringValidators p tag).ref = p.ref := by
  simp only [addStringValidators]; (repeat' split) <;> rfl

theorem addStringValidators_addl (p : Property) (tag : GoTag) :
    (addStringValidators p tag).additionalProperties = p.additionalProperties := by
  simp only [addStringValidators]; (repeat' split) <;> rfl

theorem addStringValidators_req (p : Property) (tag : GoTag) :
    (addStringValidators p tag).required = p.required := by
  simp only [addStringValidators]; (repeat' split) <;> rfl

theorem addStringValidators_props (p : Property) (tag : GoTag) :
    (addStringValidators p tag).properties = p.properties := by
  simp only [addStringValidators]; (repeat' split) <;> rfl

theorem addStringValidators_default (p : Property) (tag : GoTag) :
    (addStringValidators p tag).default = p.default := by
  simp only [addStringValidators]; (repeat' split) <;> rfl

theorem addNumberValidators_type (p : Property) (tag : GoTag) :
    (addNumberValidators p tag).type = p.type := by
  simp only [addNumberValidators]; (repeat' split) <;> rfl

theorem addNumberValidators_ref (p : Property) (tag : GoTag) :
    (addNumberValidators p tag).ref = p.ref := by
  simp only [addNumberValidators]; (repeat' split) <;> rfl

theorem addNumberValidators_addl (p : Property) (tag : GoTag) :
    (addNumberValidators p tag).additionalProperties = p.additionalProperties := by
  simp only [addNumberValidators]; (repeat' split) <;> rfl

theorem addNumberValidators_req (p : Property) (tag : GoTag) :
    (addNumberValidators p tag).required = p.required := by
  simp only [addNumberValidators]; (repeat' split) <;> rfl

theorem addNumberValidators_props (p : Property) (tag : GoTag) :
    (addNumberValidators p tag).properties = p.properties := by
  simp only [addNumberValidators]; (repeat' split) <;> rfl

theorem addNumberValidators_default (p : Property) (tag : GoTag) :
    (addNumberValidators p tag).default = p.default := by
  simp only [addNumberValidators]; (repeat' split) <;> rfl

theorem addValidatorsFromTags_type (p : Property) (tag : GoTag) :
    (addValidatorsFromTags p tag).type = p.type := by
  simp only [addValidatorsFromTags]
  (repeat' split) <;> simp [addStringValidators_type, addNumberValidators_type]

theorem addValidatorsFromTags_ref (p : Property) (tag : GoTag) :
    (addValidatorsFromTags p tag).ref = p.ref := by
  simp only [addValidatorsFromTags]
  (repeat' split) <;> simp [addStringValidators_ref, addNumberValidators_ref]

theorem addValidatorsFromTags_addl (p : Property) (tag : GoTag) :
    (addValidatorsFromTags p tag).additionalProperties = p.additionalProperties := by
  simp only [addValidatorsFromTags]
  (repeat' split) <;> simp [addStringValidators_addl, addNumberValidators_addl]

theorem addValidatorsFromTags_req (p : Property) (tag : GoTag) :
    (addValidatorsFromTags p tag).required = p.required := by
  simp only [addValidatorsFromTags]
  (repeat' split) <;> simp [addStringValidators_req, addNumberValidators_req]

theorem addValidatorsFromTags_props (p : Property) (tag : GoTag) :
    (addValidatorsFromTags p tag).properties = p.properties := by
  simp only [addValidatorsFromTags]
  (repeat' split) <;> simp [addStringValidators_props, addNumberValidators_props]

theorem addValidatorsFromTags_default (p : Property) (tag : GoTag) :
    (addValidatorsFromTags p tag).default = p.default := by
  simp only [addValidatorsFromTags]
  (repeat' split) <;> simp [addStringValidators_default, addNumberValidators_default]

theorem applyExtensions_type (t : Property) (tag : GoTag) :
    (applyExtensions t tag).type = t.type := by
  simp only [applyExtensions]; split <;> rfl

theorem applyExtensions_ref (t : Property) (tag : GoTag) :
    (applyExtensions t tag).ref = t.ref := by
  simp only [applyExtensions]; split <;> rfl

theorem applyExtensions_addl (t : Property) (tag : GoTag) :
    (applyExtensions t tag).additionalProperties = t.additionalProperties := by
  simp only [applyExtensions]; split <;> rfl

theorem applyExtensions_req (t : Property) (tag : GoTag) :
    (applyExtensions t tag).required = t.required := by
  simp only [applyExtensions]; split <;> rfl

theorem applyExtensions_props (t : Property) (tag : GoTag) :
    (applyExtensions t tag).properties = t.properties := by
  simp only [applyExtensions]; split <;> rfl

theorem applyExtensions_default (t : Property) (tag : GoTag) :
    (applyExtensions t tag).default = t.default := by
  simp only [applyExtensions]; split <;> rfl

theorem requiredStep_type (p : Property) (tag : GoTag) (opts name : String) :
    (requiredStep p tag opts name).type = p.type := by
  simp only [requiredStep]; split <;> rfl

theorem requiredStep_ref (p : Property) (tag : GoTag) (opts name : String) :
    (requiredStep p tag opts name).ref = p.ref := by
  simp only [requiredStep]; split <;> rfl

theorem requiredStep_addl (p : Property) (tag : GoTag) (opts name : String) :
    (requiredStep p tag opts name).additionalProperties = p.additionalProperties := by
  simp only [requiredStep]; split <;> rfl

theorem requiredStep_props (p : Property) (tag : GoTag) (opts name : String) :
    (requiredStep p tag opts name).properties = p.properties := by
  simp only [requiredStep]; split <;> rfl

theorem requiredStep_required (p : Property) (tag : GoTag) (opts name : String) :
    (requiredStep p tag opts name).required
      = p.required ++ (if tag.required && !(tagContains opts "omitempty") then [name] else []) := by
  simp only [requiredStep]
  cases htr : tag.required <;> cases htc : tagContains opts "omitempty" <;> simp [htr, htc]

theorem decorate_ok_type (t : Property) (tag : GoTag) (nm : String) (r : Property)
    (h : decorate t tag nm = .ok r) : r.type = t.type := by
  simp only [decorate] at h
  split at h
  · split at h
    · cases h; simp [applyExtensions_type, addValidatorsFromTags_type]
    · cases h
  · cases h; simp [applyExtensions_type, addValidatorsFromTags_type]

theorem decorate_ok_ref (t : Property) (tag : GoTag) (nm : String) (r : Property)
    (h : decorate t tag nm = .ok r) : r.ref = t.ref := by
  simp only [decorate] at h
  split at h
  · split at h
    · cases h; simp [applyExtensions_ref, addValidatorsFromTags_ref]
    · cases h
  · cases h; simp [applyExtensions_ref, addValidatorsFromTags_ref]

theorem decorate_ok_addl (t : Property) (tag : GoTag) (nm : String) (r : Property)
    (h : decorate t tag nm = .ok r) : r.additionalProperties = t.additionalProperties := by
  simp only [decorate] at h
  split at h
  · split at h
    · cases h; simp [applyExtensions_addl, addValidatorsFromTags_addl]
    · cases h
  · cases h; simp [applyExtensions_addl, addValidatorsFromTags_addl]

theorem decorate_ok_req (t : Property) (tag : GoTag) (nm : String) (r : Property)
    (h : decorate t tag nm = .ok r) : r.required = t.required := by
  simp only [decorate] at h
  split at h
  · split at h
    · cases h; simp [applyExtensions_req, addValidatorsFromTags_req]
    · cases h
  · cases h; simp [applyExtensions_req, addValidatorsFromTags_req]

theorem decorate_ok_props (t : Property) (tag : GoTag) (nm : String) (r : Property)
    (h : decorate t tag nm = .ok r) : r.properties = t.properties := by
  simp only [decorate] at h
  split at h
  · split at h
    · cases h; simp [applyExtensions_props, addValidatorsFromTags_props]
    · cases h
  · cases h; simp [applyExtensions_props, addValidatorsFromTags_props]

theorem processField_core (kt : KnownTypes) (p : Property) (f : GoStructField) (q : Property)
    (h : processField kt p f = .ok q) :
    q.type = p.type ∧ q.ref = p.ref ∧ q.additionalProperties = p.additionalProperties := by
  obtain ⟨fname, ex, tag, fty⟩ := f
  cases ex with
  | true =>
    simp only [processField, eq_self_iff_true, if_true] at h
    split at h
    · cases h
    · split at h <;> split at h <;>
        first
          | (cases h; exact ⟨rfl, rfl, rfl⟩)
          | (split at h
             · cases h
               refine ⟨?_, ?_, ?_⟩ <;>
                 simp [requiredStep_type, requiredStep_ref, requiredStep_addl]
             · cases h)
  | false =>
    simp only [processField, Bool.false_eq_true, if_false] at h
    split at h
    case _ p2 heq =>
      cases h
      have d1 := decorate_ok_type p tag (parseTag (tag.json.getD "")).1 p2 heq
      have d2 := decorate_ok_ref p tag (parseTag (tag.json.getD "")).1 p2 heq
      have d3 := decorate_ok_addl p tag (parseTag (tag.json.getD "")).1 p2 heq
      refine ⟨?_, ?_, ?_⟩ <;>
        simp [requiredStep_type, requiredStep_ref, requiredStep_addl, d1, d2, d3]
    case _ e heq => cases h

theorem processFields_core (kt : KnownTypes) (fs : List GoStructField) :
    ∀ p q, processFields kt p fs = .ok q →
      q.type = p.type ∧ q.ref = p.ref ∧ q.additionalProperties = p.additionalProperties := by
  induction fs with
  | nil =>
    intro p q h
    simp only [processFields] at h
    cases h
    exact ⟨rfl, rfl, rfl⟩
  | cons f rest ih =>
    intro p q h
    simp only [processFields] at h
    split at h
    · case _ p2 heq =>
        have h1 := processField_core kt p f p2 heq
        have h2 := ih p2 q h
        exact ⟨h2.1.trans h1.1, h2.2.1.trans h1.2.1, h2.2.2.trans h1.2.2⟩
    · cases h

/-! ### Lemmas about the key-value encodings -/

theorem mergeExt_nil (fields : List (String × Json)) : mergeExt fields [] = fields := rfl

theorem mergeExt_cons (fields : List (String × Json)) (e : String × Json)
    (rest : List (String × Json)) :
    mergeExt fields (e :: rest) = mergeExt (jsonSet fields e.1 e.2) rest := rfl

theorem keys_filterTable_sublist (tbl : List (String × Option Json)) :
    ((filterTable tbl).map Prod.fst).Sublist (tbl.map Prod.fst) := by
  induction tbl with
  | nil => simp [filterTable]
  | cons e rest ih =>
    obtain ⟨l, v?⟩ := e
    cases v? with
    | none =>
      simpa [filterTable, List.filterMap_cons] using ih.cons l
    | some v =>
      simpa [filterTable, List.filterMap_cons] using ih.cons₂ l

theorem fieldTable_keys (p : Property) : (fieldTable p).map Prod.fst = fieldLabels := by
  cases p
  rfl

theorem fieldLabels_nodup : fieldLabels.Nodup := by decide

theorem emitFields_keys_nodup (p : Property) :
    ((filterTable (fieldTable p)).map Prod.fst).Nodup := by
  have h := keys_filterTable_sublist (fieldTable p)
  rw [fieldTable_keys] at h
  exact fieldLabels_nodup.sublist h

theorem mem_keys_jsonSet (l : List (String × Json)) (k a : String) (v : Json)
    (h : a ∈ (jsonSet l k v).map Prod.fst) : a ∈ l.map Prod.fst ∨ a = k := by
  induction l with
  | nil =>
    simp [jsonSet] at h
    exact Or.inr h
  | cons e rest ih =>
    obtain ⟨k1, v1⟩ := e
    by_cases hk : k1 = k
    · simp only [jsonSet, if_pos hk, List.map_cons] at h
      rcases List.mem_cons.mp h with h1 | h1
      · exact Or.inr h1
      · exact Or.inl (by simp [List.mem_cons.mpr (Or.inr h1)])
    · simp only [jsonSet, if_neg hk, List.map_cons] at h
      rcases List.mem_cons.mp h with h1 | h1
      · exact Or.inl (by simp [h1])
      · rcases ih h1 with h2 | h2
        · exact Or.inl (by simp [List.mem_cons.mpr (Or.inr h2)])
        · exact Or.inr h2

theorem keys_nodup_jsonSet (l : List (String × Json)) (k : String) (v : Json)
    (h : (l.map Prod.fst).Nodup) : ((jsonSet l k v).map Prod.fst).Nodup := by
  induction l with
  | nil => simp [jsonSet]
  | cons e rest ih =>
    obtain ⟨k1, v1⟩ := e
    simp only [List.map_cons, List.nodup_cons] at h
    by_cases hk : k1 = k
    · simp only [jsonSet, if_pos hk, List.map_cons, List.nodup_cons]
      exact ⟨hk ▸ h.1, h.2⟩
    · simp only [jsonSet, if_neg hk, List.map_cons, List.nodup_cons]
      refine ⟨fun hmem => ?_, ih h.2⟩
      rcases mem_keys_jsonSet rest k k1 v hmem with h2 | h2
      · exact h.1 h2
      · exact hk h2

theorem lookup_cons (a k1 : String) (v1 : Json) (rest : List (String × Json)) :
    List.lookup a ((k1, v1) :: rest) = if a = k1 then some v1 else List.lookup a rest := by
  by_cases h : a = k1
  · have hb : (a == k1) = true := beq_iff_eq.mpr h
    simp only [List.lookup, hb, if_pos h]
  · have hb : (a == k1) = false := beq_eq_false_iff_ne.mpr h
    simp only [List.lookup, hb, if_neg h]

theorem lookup_jsonSet_self (l : List (String × Json)) (k : String) (v : Json) :
    List.lookup k (jsonSet l k v) = some v := by
  induction l with
  | nil => simp [jsonSet, lookup_cons]
  | cons e rest ih =>
    obtain ⟨k1, v1⟩ := e
    by_cases hk : k1 = k
    · simp [jsonSet, if_pos hk, lookup_cons]
    · simp only [jsonSet, if_neg hk, lookup_cons]
      rw [if_neg (fun h => hk h.symm)]
      exact ih

theorem lookup_jsonSet_ne (l : List (String × Json)) (k a : String) (v : Json)
    (ha : a ≠ k) : List.lookup a (jsonSet l k v) = List.lookup a l := by
  induction l with
  | nil =>
    simp only [jsonSet]
    rw [lookup_cons, if_neg ha]
  | cons e rest ih =>
    obtain ⟨k1, v1⟩ := e
    by_cases hk : k1 = k
    · subst hk
      simp [jsonSet, lookup_cons, ha]
    · simp only [jsonSet, if_neg hk, lookup_cons]
      by_cases hak : a = k1
      · simp [hak]
      · rw [if_neg hak, if_neg hak]
        exact ih

theorem lookup_mergeExt_not_mem (ext : List (String × Json)) :
    ∀ fields k, k ∉ ext.map Prod.fst →
      List.lookup k (mergeExt fields ext) = List.lookup k fields := by
  induction ext with
  | nil => intro fields k _; rfl
  | cons e rest ih =>
    intro fields k h
    simp only [List.map_cons, List.mem_cons] at h
    push_neg at h
    rw [mergeExt_cons, ih _ k h.2, lookup_jsonSet_ne _ _ _ _ h.1]

theorem lookup_mergeExt_self (ext : List (String × Json)) :
    ∀ fields k v, (ext.map Prod.fst).Nodup → (k, v) ∈ ext →
      List.lookup k (mergeExt fields ext) = some v := by
  induction ext with
  | nil => intro _ _ _ _ hm; cases hm
  | cons e rest ih =>
    intro fields k v hn hm
    simp only [List.map_cons, List.nodup_cons] at hn
    rw [mergeExt_cons]
    rcases List.mem_cons.mp hm with he | hm2
    · subst he
      rw [lookup_mergeExt_not_mem rest _ k hn.1, lookup_jsonSet_self]
    · exact ih _ k v hn.2 hm2

theorem keys_nodup_mergeExt (ext : List (String × Json)) :
    ∀ fields, ((fields.map Prod.fst).Nodup) →
      (((mergeExt fields ext).map Prod.fst).Nodup) := by
  induction ext with
  | nil => intro fields h; exact h
  | cons e rest ih =>
    intro fields h
    rw [mergeExt_cons]
    exact ih _ (keys_nodup_jsonSet fields e.1 e.2 h)

theorem insertByKey_perm (kv : String × Json) (l : List (String × Json)) :
    (insertByKey kv l).Perm (kv :: l) := by
  induction l with
  | nil => simp [insertByKey]
  | cons x xs ih =>
    simp only [insertByKey]
    split
    · exact List.Perm.refl _
    · exact (ih.cons x).trans (List.Perm.swap kv x xs)

theorem sortByKey_perm (l : List (String × Json)) : (sortByKey l).Perm l := by
  induction l with
  | nil => simp [sortByKey]
  | cons x xs ih =>
    have hs : sortByKey (x :: xs) = insertByKey x (sortByKey xs) := rfl
    rw [hs]
    exact (insertByKey_perm x (sortByKey xs)).trans (ih.cons x)

theorem lookup_mem (l : List (String × Json)) (k : String) (v : Json)
    (h : List.lookup k l = some v) : (k, v) ∈ l := by
  induction l with
  | nil => cases h
  | cons e rest ih =>
    obtain ⟨k1, v1⟩ := e
    rw [lookup_cons] at h
    by_cases hk : k = k1
    · rw [if_pos hk] at h
      cases h
      exact List.mem_cons.mpr (Or.inl (by rw [hk]))
    · rw [if_neg hk] at h
      exact List.mem_cons.mpr (Or.inr (ih h))

theorem nodup_mem_lookup (l : List (String × Json)) (k : String) (v : Json)
    (hn : (l.map Prod.fst).Nodup) (hm : (k, v) ∈ l) : List.lookup k l = some v := by
  induction l with
  | nil => cases hm
  | cons e rest ih =>
    obtain ⟨k1, v1⟩ := e
    simp only [List.map_cons, List.nodup_cons] at hn
    rcases List.mem_cons.mp hm with he | hm2
    · cases he
      simp [lookup_cons]
    · have hk : k ≠ k1 := by
        intro hkk
        exact hn.1 (hkk ▸ (List.mem_map.mpr ⟨(k, v), hm2, rfl⟩))
      rw [lookup_cons, if_neg hk]
      exact ih hn.2 hm2

/-! ### Claim theorems -/

/-- C1: evaluating the pointer branch at the claim's inputs.  A pointer
to int, bool or float64 keeps the plain wrapped type and receives no
anyOf pair, because `isPrimitive` (whose Go switch does not fall
through) returns false for every kind except the string kinds; only a
pointer to string receives anyOf = [{type: string}, {type: "null"}]
with the top-level type cleared, as the claim demands for all four
primitive families. -/
theorem pointer_primitive_anyOf_only_for_string :
    read [] Property.empty (.ptr .int) = .ok (typeOnlyNode "integer")
  ∧ read [] Property.empty (.ptr .bool) = .ok (typeOnlyNode "boolean")
  ∧ read [] Property.empty (.ptr .float64) = .ok (typeOnlyNode "number")
  ∧ read [] Property.empty (.ptr .string) = .ok nullableStringNode
  ∧ isPrimitive Kind.int = false ∧ isPrimitive Kind.bool = false
  ∧ isPrimitive Kind.float64 = false ∧ isPrimitive Kind.string = true :=
  ⟨rfl, rfl, rfl, rfl, rfl, rfl, rfl, rfl⟩

/-- C2: a struct type registered in the definition registry builds, when
not at a definition root, to a node whose only set key is
ref = "#/definitions/<name>" (every other field still at its zero
value); built as a definition root the same type yields an inline
object schema with empty ref, type "object" and additionalProperties
false. -/
theorem registered_struct_ref_vs_inline (kt : KnownTypes) (n defName : String)
    (fs : List GoStructField) (h : List.lookup n kt = some defName) :
    read kt Property.empty (.strct n fs)
      = .ok { Property.empty with ref := "#/definitions/" ++ defName }
  ∧ inlineObjectResult
      (read kt { Property.empty with isDefinition := true } (.strct n fs)) = true := by
  constructor
  · simp [read, readAssignType, getTypeFromMapping, GoType.kind, kindMapping,
      getReference, h, Property.empty]
  · have hread : read kt { Property.empty with isDefinition := true } (.strct n fs)
        = processFields kt { Property.empty with isDefinition := true, type := "object" } fs := by
      simp [read, readAssignType, getTypeFromMapping, GoType.kind, kindMapping, Property.empty]
    rw [hread]
    cases hr : processFields kt { Property.empty with isDefinition := true, type := "object" } fs with
    | error e => simp [inlineObjectResult]
    | ok r =>
      have hc := processFields_core kt fs _ r hr
      simp [inlineObjectResult, hc.1, hc.2.1, hc.2.2, Property.empty]

/-- Witness for C2 at the registry [("Child", "child")] and a concrete
one-field struct. -/
theorem registered_struct_ref_vs_inline_witness :
    read c2kt Property.empty (.strct "Child" [fieldDataReq])
      = .ok { Property.empty with ref := "#/definitions/" ++ "child" }
  ∧ inlineObjectResult
      (read c2kt { Property.empty with isDefinition := true } (.strct "Child" [fieldDataReq])) = true :=
  registered_struct_ref_vs_inline c2kt "Child" "child" [fieldDataReq] rfl

/-- C3: processing one exported field whose resolved external name is
not "-" appends that name to the parent's required list exactly when
the field carries a required annotation and its json options do not
contain "omitempty"; in particular required plus omitempty appends
nothing. -/
theorem visible_field_required_iff (kt : KnownTypes) (p : Property) (fname : String)
    (tag : GoTag) (fty : GoType) (q : Property)
    (hname : resolvedName fname tag ≠ "-")
    (h : processField kt p (.mk fname true tag fty) = .ok q) :
    q.required = p.required ++
      (if tag.required && !(tagContains (parseTag (tag.json.getD "")).2 "omitempty")
       then [resolvedName fname tag] else []) := by
  simp only [processField, eq_self_iff_true, if_true] at h
  have hrn : (if (parseTag (tag.json.getD "")).1 = "" then fname
      else (parseTag (tag.json.getD "")).1) = resolvedName fname tag := rfl
  rw [hrn] at h
  split at h
  · cases h
  · rw [if_neg hname] at h
    split at h
    · cases h
      rw [requiredStep_required]
    · cases h

/-- Witness for C3: the concrete required field "data" lands in the
required list. -/
theorem visible_field_required_iff_witness :
    c3Result.required = Property.empty.required ++
      (if c3Tag.required && !(tagContains (parseTag (c3Tag.json.getD "")).2 "omitempty")
       then [resolvedName "Data" c3Tag] else []) :=
  visible_field_required_iff [] Property.empty "Data" c3Tag .string c3Result (by decide) rfl

/-- C4 counterexample: for `map[string][]string` the value type is not a
primitive, yet the build emits the wildcard `properties` entry
{".*" : {type: "array"}} and leaves additionalProperties false, because
`readFromMap` branches on the mapped JSON type being non-empty, not on
primitiveness. -/
theorem map_of_slice_gets_wildcard_properties :
    read [] Property.empty (.mapOf (.slice .string)) = .ok c4Node
  ∧ c4Node.additionalProperties = false
  ∧ c4Node.properties.isEmpty = false :=
  ⟨rfl, rfl, rfl⟩

/-- C4 as amended: for every map value type, a non-empty mapped JSON
type (primitive or not) yields the wildcard properties entry with
additionalProperties left false, and only an unmapped value type (e.g.
interface) yields additionalProperties = true with no properties. -/
theorem map_schema_by_value_type (kt : KnownTypes) (e : GoType) :
    read kt Property.empty (.mapOf e) = .ok (
      if (getTypeFromMapping e).1 = "" then
        { Property.empty with type := "object", additionalProperties := true }
      else
        { Property.empty with
            type := "object",
            properties := [(".*", { Property.empty with
                                      type := (getTypeFromMapping e).1,
                                      format := (getTypeFromMapping e).2.1 })] }) := by
  have hm : getTypeFromMapping (GoType.mapOf e) = ("object", "", Kind.map) := rfl
  rcases hg : getTypeFromMapping e with ⟨jt, fmt, kd⟩
  by_cases hjt : jt = ""
  · subst hjt
    simp [read, readAssignType, hm, readFromMap, hg]
  · simp [read, readAssignType, hm, readFromMap, hg, hjt]

/-- C5 counterexample: an unexported field tagged json:"-" with a
required annotation produces no properties entry but its name "-" is
appended to required, because the "-" skip applies only to exported
fields while the required step runs for every field. -/
theorem unexported_dash_required_appended :
    read [] Property.empty (.strct "S" [.mk "meta" false c5Tag .string]) = .ok c5Node
  ∧ c5Node.required = ["-"]
  ∧ c5Node.properties.isEmpty = true :=
  ⟨rfl, rfl, rfl⟩

/-- C5 as amended: an exported field whose resolved external name is
"-" is skipped entirely, leaving the parent node unchanged (no
properties entry, nothing appended to required). -/
theorem exported_dash_field_skipped (kt : KnownTypes) (p : Property) (fname : String)
    (tag : GoTag) (fty : GoType) (q : Property)
    (hname : resolvedName fname tag = "-")
    (h : processField kt p (.mk fname true tag fty) = .ok q) :
    q = p := by
  simp only [processField, eq_self_iff_true, if_true] at h
  have hrn : (if (parseTag (tag.json.getD "")).1 = "" then fname
      else (parseTag (tag.json.getD "")).1) = resolvedName fname tag := rfl
  rw [hrn] at h
  split at h
  · cases h
  · rw [if_pos hname] at h
    cases h
    rfl

/-- Witness for the amended C5 at a concrete exported "-" field. -/
theorem exported_dash_field_skipped_witness : c5Result = Property.empty :=
  exported_dash_field_skipped [] Property.empty "Skip" c5Tag .string c5Result (by decide) rfl

/-- C6: the default coercion is decided by the node's declared type:
string passes the literal through; number and integer parse it as a
float, an unparsable literal being an error naming the literal and
property; boolean parses it as a boolean literal with the analogous
error; any other declared type is an error naming the type and
property. -/
theorem default_coercion_by_declared_type (t : Property) (tag : GoTag) (nm s : String)
    (hd : tag.default = some s) :
    (t.type = "string" → defaultOf (decorate t tag nm) = some (some (Lit.str s)))
  ∧ (∀ q, (t.type = "number" ∨ t.type = "integer") → parseFloatLit s = some q →
      defaultOf (decorate t tag nm) = some (some (Lit.num q)))
  ∧ ((t.type = "number" ∨ t.type = "integer") → parseFloatLit s = none →
      decorate t tag nm
        = .error ("could not parse \"" ++ s ++ "\" to float64 for property " ++ nm))
  ∧ (∀ b, t.type = "boolean" → parseBoolLit s = some b →
      defaultOf (decorate t tag nm) = some (some (Lit.bool b)))
  ∧ (t.type = "boolean" → parseBoolLit s = none →
      decorate t tag nm
        = .error ("could not parse \"" ++ s ++ "\" to bool for property " ++ nm))
  ∧ (t.type ≠ "string" → t.type ≠ "number" → t.type ≠ "integer" → t.type ≠ "boolean" →
      decorate t tag nm
        = .error ("default not supported for type \"" ++ t.type ++ "\" on property " ++ nm)) := by
  have hde : decorate t tag nm = match applyDefault t.type s nm with
      | .ok l => .ok (applyExtensions
          { addValidatorsFromTags
              { t with description := tag.description, title := tag.title } tag
            with default := some l } tag)
      | .error e => .error e := by
    simp only [decorate, hd]
    rw [addValidatorsFromTags_type]
  refine ⟨?_, ?_, ?_, ?_, ?_, ?_⟩
  · intro h1
    rw [hde, h1]
    simp [applyDefault, defaultOf, applyExtensions_default]
  · intro q hty hp
    rcases hty with h1 | h1 <;>
      (rw [hde, h1]; simp [applyDefault, hp, defaultOf, applyExtensions_default])
  · intro hty hp
    rcases hty with h1 | h1 <;>
      (rw [hde, h1]; simp [applyDefault, hp])
  · intro b hty hp
    rw [hde, hty]
    simp [applyDefault, hp, defaultOf, applyExtensions_default]
  · intro hty hp
    rw [hde, hty]
    simp [applyDefault, hp]
  · intro h1 h2 h3 h4
    rw [hde]
    simp [applyDefault, h1, h2, h3, h4]

/-- Witness for C6: an integer node with default "42" stores the parsed
float 42. -/
theorem default_coercion_by_declared_type_witness :
    defaultOf (decorate c6Node c6Tag "n") = some (some (Lit.num 42)) :=
  (default_coercion_by_declared_type c6Node c6Tag "n" "42" rfl).2.1 42 (Or.inr rfl) (by decide)

/-- C7: a validator literal that fails to parse is silently dropped:
the corresponding node field keeps its previous value, and the
extraction itself cannot fail (decorating with any such tag still
succeeds when no default tag is present). -/
theorem unparsable_validator_literals_ignored (p : Property) (tag : GoTag) (nm : String) :
    (parseIntLit tag.minLength = none → (addStringValidators p tag).minLength = p.minLength)
  ∧ (parseIntLit tag.maxLength = none → (addStringValidators p tag).maxLength = p.maxLength)
  ∧ (parseFloatLit tag.multipleOf = none → (addNumberValidators p tag).multipleOf = p.multipleOf)
  ∧ (parseFloatLit tag.min = none → (addNumberValidators p tag).minimum = p.minimum)
  ∧ (parseFloatLit tag.max = none → (addNumberValidators p tag).maximum = p.maximum)
  ∧ (parseFloatLit tag.exclusiveMin = none →
      (addNumberValidators p tag).exclusiveMinimum = p.exclusiveMinimum)
  ∧ (parseFloatLit tag.exclusiveMax = none →
      (addNumberValidators p tag).exclusiveMaximum = p.exclusiveMaximum)
  ∧ (parseType tag.const p.type = none → (addNumberValidators p tag).const = p.const)
  ∧ (tag.default = none → isOkResult (decorate p tag nm) = true) := by
  refine ⟨?_, ?_, ?_, ?_, ?_, ?_, ?_, ?_, ?_⟩ <;> intro h
  · simp only [addStringValidators, h]
    (repeat' split) <;> rfl
  · simp only [addStringValidators, h]
    (repeat' split) <;> rfl
  · simp only [addNumberValidators, h]
    (repeat' split) <;> simp_all
  · simp only [addNumberValidators, h]
    (repeat' split) <;> simp_all
  · simp only [addNumberValidators, h]
    (repeat' split) <;> simp_all
  · simp only [addNumberValidators, h]
    (repeat' split) <;> simp_all
  · simp only [addNumberValidators, h]
    (repeat' split) <;> simp_all
  · simp only [addNumberValidators]
    (repeat' split) <;> simp_all
  · simp [decorate, h, isOkResult]

/-- Witness for C7: a tag whose eight numeric literals all fail to
parse leaves every corresponding validator slot untouched and the
decoration still succeeds. -/
theorem unparsable_validator_literals_ignored_witness :
    ((addStringValidators c7p c7Tag).minLength = c7p.minLength)
  ∧ ((addStringValidators c7p c7Tag).maxLength = c7p.maxLength)
  ∧ ((addNumberValidators c7p c7Tag).multipleOf = c7p.multipleOf)
  ∧ ((addNumberValidators c7p c7Tag).minimum = c7p.minimum)
  ∧ ((addNumberValidators c7p c7Tag).maximum = c7p.maximum)
  ∧ ((addNumberValidators c7p c7Tag).exclusiveMinimum = c7p.exclusiveMinimum)
  ∧ ((addNumberValidators c7p c7Tag).exclusiveMaximum = c7p.exclusiveMaximum)
  ∧ ((addNumberValidators c7p c7Tag).const = c7p.const)
  ∧ (isOkResult (decorate c7p c7Tag "n") = true) := by
  have h := unparsable_validator_literals_ignored c7p c7Tag "n"
  exact ⟨h.1 (by decide), h.2.1 (by decide), h.2.2.1 (by decide), h.2.2.2.1 (by decide),
    h.2.2.2.2.1 (by decide), h.2.2.2.2.2.1 (by decide), h.2.2.2.2.2.2.1 (by decide),
    h.2.2.2.2.2.2.2.1 (by decide), h.2.2.2.2.2.2.2.2 rfl⟩

/-- C8: every key of a successfully parsed extensions payload appears
in the node's emitted object at the node's own level with the payload's
value, overriding a structural keyword of the same name (lookups in the
emitted key-value list return the extension value); in particular the
enumNames payload on a field with enum "a|b|c" yields a node carrying
both "enum" and "enumNames" at the same level. -/
theorem extensions_merge_and_override :
    (∀ (p : Property) (ext : List (String × Json)) (k : String) (v : Json),
        p.extensions = some ext → (ext.map Prod.fst).Nodup → (k, v) ∈ ext →
        List.lookup k p.emitKVs = some v)
  ∧ List.lookup "enum" c8Node.emitKVs
      = some (Json.arr [Json.str "a", Json.str "b", Json.str "c"])
  ∧ List.lookup "enumNames" c8Node.emitKVs
      = some (Json.arr [Json.str "A", Json.str "B", Json.str "C"]) := by
  refine ⟨?_, rfl, rfl⟩
  intro p ext k v hext hnod hmem
  have hkv : p.emitKVs = sortByKey (mergeExt (filterTable (fieldTable p)) ext) := by
    simp [Property.emitKVs, assembleKVs, hext]
  rw [hkv]
  have hfn : ((filterTable (fieldTable p)).map Prod.fst).Nodup := emitFields_keys_nodup p
  have hmn : ((mergeExt (filterTable (fieldTable p)) ext).map Prod.fst).Nodup :=
    keys_nodup_mergeExt ext _ hfn
  have hlk : List.lookup k (mergeExt (filterTable (fieldTable p)) ext) = some v :=
    lookup_mergeExt_self ext _ k v hnod hmem
  have hmem2 : (k, v) ∈ mergeExt (filterTable (fieldTable p)) ext := lookup_mem _ k v hlk
  have hperm := sortByKey_perm (mergeExt (filterTable (fieldTable p)) ext)
  have hmem3 : (k, v) ∈ sortByKey (mergeExt (filterTable (fieldTable p)) ext) :=
    hperm.mem_iff.mpr hmem2
  have hsn : ((sortByKey (mergeExt (filterTable (fieldTable p)) ext)).map Prod.fst).Nodup :=
    ((hperm.map Prod.fst).nodup_iff).mpr hmn
  exact nodup_mem_lookup _ k v hsn hmem3

/-- Witness for C8: an extensions key named like the structural keyword
"type" overrides the structural value in the emitted object. -/
theorem extensions_merge_and_override_witness :
    List.lookup "type" c8OverrideNode.emitKVs = some (Json.str "overridden") :=
  extensions_merge_and_override.1 c8OverrideNode [("type", Json.str "overridden")]
    "type" (Json.str "overridden") rfl (by decide) (List.mem_singleton.mpr rfl)

/-- C9: the round-trip scenario.  A composite with the required string
field "data" and the omitempty string field "note", generated with the
default dialect URI, emits exactly the claimed document with every
empty or default-valued key omitted. -/
theorem round_trip_document_literal :
    (((newGenerator "").withRoot c9Root).generate).map JSONSchema.emit = .ok c9Expected :=
  rfl

/-- C10: an unexported field carrying a required annotation without
omitempty appends its raw tag name (possibly "-" or empty) to the
enclosing object's required list while creating no properties entry. -/
theorem unexported_required_appends_name (kt : KnownTypes) (p : Property) (fname : String)
    (tag : GoTag) (fty : GoType) (q : Property)
    (hreq : tag.required = true)
    (homit : tagContains (parseTag (tag.json.getD "")).2 "omitempty" = false)
    (h : processField kt p (.mk fname false tag fty) = .ok q) :
    q.required = p.required ++ [(parseTag (tag.json.getD "")).1]
  ∧ q.properties = p.properties := by
  simp only [processField, Bool.false_eq_true, if_false] at h
  split at h
  case _ p2 heq =>
    cases h
    have hreq2 := decorate_ok_req p tag (parseTag (tag.json.getD "")).1 p2 heq
    have hprops := decorate_ok_props p tag (parseTag (tag.json.getD "")).1 p2 heq
    constructor
    · rw [requiredStep_required, hreq2, hreq, homit]
      simp
    · rw [requiredStep_props, hprops]
  case _ e heq => cases h

/-- Witness for C10: an unexported field tagged json:"-" required:"true"
appends "-" to required and leaves properties empty. -/
theorem unexported_required_appends_name_witness :
    c10Result.required = Property.empty.required ++ [(parseTag (c5Tag.json.getD "")).1]
  ∧ c10Result.properties = Property.empty.properties :=
  unexported_required_appends_name [] Property.empty "meta" c5Tag .string c10Result
    rfl (by decide) rfl

end GoJsonSchema
